import Mathlib

/-
Verification of the front end of the "01" language (tokenizer / parser /
semantic analyzer).  The development below is a shallow embedding of the
code in src/parser.py and src/semantic.py.

Python values that flow through the analyzer (AST nodes, type descriptors,
symbol-table entries) are heterogeneous: tuples, lists, strings and None.
They are embedded as the inductive type PyVal.  The distinction between
tuples and lists is preserved because the analyzer dispatches on
isinstance(node, tuple) and silently returns for every non-tuple.

Python exceptions are embedded in PyErr: SemanticError carries its message;
IndexError, ValueError, TypeError and AttributeError are the untyped
exceptions the interpreter itself can raise on the corresponding
operations.  The constructor outOfFuel is a modelling artifact only: the
embedded analyzer is executed with a fuel bound, and outOfFuel marks fuel
exhaustion (corresponding to nontermination of the Python original, which
is impossible on parser output).
-/

namespace Olang

inductive PyVal where
  | str : String → PyVal
  | intv : Int → PyVal
  | tup : List PyVal → PyVal
  | list : List PyVal → PyVal
  | none : PyVal

/- Structural equality of Python values (Python ==). -/
mutual
def pyBeq : PyVal → PyVal → Bool
  | .str a, .str b => a == b
  | .intv a, .intv b => a == b
  | .none, .none => true
  | .tup a, .tup b => pyBeqs a b
  | .list a, .list b => pyBeqs a b
  | _, _ => false
def pyBeqs : List PyVal → List PyVal → Bool
  | [], [] => true
  | x :: xs, y :: ys => pyBeq x y && pyBeqs xs ys
  | _, _ => false
end

/-- Member-wise induction principle for PyVal (its list arguments are
traversed element by element). -/
theorem pyInd (P : PyVal → Prop)
    (hs : ∀ s, P (.str s)) (hi : ∀ n, P (.intv n)) (hn : P .none)
    (ht : ∀ l, (∀ x ∈ l, P x) → P (.tup l))
    (hl : ∀ l, (∀ x ∈ l, P x) → P (.list l)) : ∀ v, P v
  | .str s => hs s
  | .intv n => hi n
  | .none => hn
  | .tup l => ht l (fun x hx => pyInd P hs hi hn ht hl x)
  | .list l => hl l (fun x hx => pyInd P hs hi hn ht hl x)
decreasing_by
  all_goals simp_wf
  all_goals exact Nat.lt_trans (List.sizeOf_lt_of_mem hx) (by simp_arith)

theorem pyBeqs_iff (l : List PyVal) (ih : ∀ x ∈ l, ∀ b, pyBeq x b = true ↔ x = b) :
    ∀ l2, pyBeqs l l2 = true ↔ l = l2 := by
  induction l with
  | nil => intro l2; cases l2 <;> simp [pyBeqs]
  | cons x xs ihl =>
      intro l2
      cases l2 with
      | nil => simp [pyBeqs]
      | cons y ys =>
          have h1 := ih x (by simp)
          have h2 := ihl (fun z hz b => ih z (by simp [hz]) b) ys
          simp [pyBeqs, Bool.and_eq_true, h1, h2]

theorem pyBeq_iff : ∀ a b, pyBeq a b = true ↔ a = b := by
  intro a
  induction a using pyInd with
  | hs s => intro b; cases b <;> simp [pyBeq]
  | hi n => intro b; cases b <;> simp [pyBeq]
  | hn => intro b; cases b <;> simp [pyBeq]
  | ht l ih => intro b; cases b <;> simp [pyBeq, pyBeqs_iff l ih]
  | hl l ih => intro b; cases b <;> simp [pyBeq, pyBeqs_iff l ih]

instance : DecidableEq PyVal := fun a b => decidable_of_iff (pyBeq a b = true) (pyBeq_iff a b)

inductive PyErr where
  | semanticError : String → PyErr
  | indexError : PyErr
  | valueError : PyErr
  | typeError : PyErr
  | attributeError : PyErr
  | outOfFuel : PyErr
  deriving DecidableEq

/-- Rendering of a PyVal as Python str() renders it inside an f-string.
For strings this is the string itself, matching every message the
analyzer actually builds.  Tuples and lists are abbreviated (no claim
depends on the rendering of a non-string value inside a message). -/
def pyStr : PyVal → String
  | .str s => s
  | .intv n => toString n
  | .tup _ => "tuple"
  | .list _ => "list"
  | .none => "None"

/-- One scope of the symbol table: an insertion-ordered dictionary from
names to type descriptors, embedded as an association list with the
replace-on-existing-key update of a Python dict. -/
abbrev Scope := List (PyVal × PyVal)

def dictGet? (k : PyVal) : Scope → Option PyVal
  | [] => Option.none
  | (k0, v0) :: d => if k0 = k then some v0 else dictGet? k d

def dictHas (k : PyVal) (d : Scope) : Bool := (dictGet? k d).isSome

def dictSet (k v : PyVal) : Scope → Scope
  | [] => [(k, v)]
  | (k0, v0) :: d => if k0 = k then (k0, v) :: d else (k0, v0) :: dictSet k v d

/-- State of one SemanticAnalyzer instance: the scopes stack of its
SymbolTable (innermost scope first, so Python scopes[-1] is the head and
reversed(scopes) is the list itself), and the current_function slot.
The analyzer starts with one global scope and current_function = None. -/
structure Analyzer where
  scopes : List Scope
  current_function : PyVal
  deriving DecidableEq


def initAnalyzer : Analyzer := ⟨[[]], PyVal.none⟩

/-- A stateful, exception-throwing computation of the analyzer. -/
def MProg (α : Type) := Analyzer → Except PyErr (α × Analyzer)

abbrev M := MProg PyVal

def mret {α : Type} (a : α) : MProg α := fun st => .ok (a, st)

def mthrow {α : Type} (e : PyErr) : MProg α := fun _ => .error e

def mbind {α β : Type} (m : MProg α) (k : α → MProg β) : MProg β := fun st =>
  match m st with
  | .error e => .error e
  | .ok (a, st1) => k a st1

def mlift {α : Type} (r : Except PyErr α) : MProg α := fun st =>
  match r with
  | .error e => .error e
  | .ok a => .ok (a, st)

/- Symbol table operations (class SymbolTable in src/semantic.py). -/

def enterScopeM : MProg PUnit := fun st => .ok (⟨⟩, ⟨[] :: st.scopes, st.current_function⟩)

def exitScopeM : MProg PUnit := fun st =>
  match st.scopes with
  | [] => .error .indexError
  | _ :: rest => .ok (⟨⟩, ⟨rest, st.current_function⟩)

/-- SymbolTable.declare: error if the name is already in the current
(innermost) scope, otherwise bind it there.  The Python method returns
None. -/
def declareSym (name ty : PyVal) : M := fun st =>
  match st.scopes with
  | [] => .error .indexError
  | top :: rest =>
      if dictHas name top then
        .error (.semanticError ("Variable " ++ pyStr name ++ " already declared in current scope"))
      else
        .ok (PyVal.none, ⟨dictSet name ty top :: rest, st.current_function⟩)

/-- Search of the scopes stack, innermost first (the Python loop
"for scope in reversed(self.scopes)"). -/
def lookupScopes (name : PyVal) : List Scope → Option PyVal
  | [] => Option.none
  | sc :: rest =>
      match dictGet? name sc with
      | some v => some v
      | Option.none => lookupScopes name rest

/-- SymbolTable.lookup: innermost-to-outermost search, SemanticError if no
scope contains the name. -/
def lookupSymM (name : PyVal) : M := fun st =>
  match lookupScopes name st.scopes with
  | some v => .ok (v, st)
  | Option.none => .error (.semanticError ("Variable " ++ pyStr name ++ " not declared"))

def setCurrentFunction (v : PyVal) : MProg PUnit := fun st => .ok (⟨⟩, ⟨st.scopes, v⟩)

/- Generic Python operations used by the analyzer. -/

/-- Python iteration over a value (for x in v).  Tuples and lists yield
their elements, strings their characters; everything else raises
TypeError. -/
def pyIter : PyVal → Except PyErr (List PyVal)
  | .tup l => .ok l
  | .list l => .ok l
  | .str s => .ok (s.toList.map (fun c => .str c.toString))
  | _ => .error .typeError

/-- Python len(v). -/
def pyLen : PyVal → Except PyErr Nat
  | .tup l => .ok l.length
  | .list l => .ok l.length
  | .str s => .ok s.length
  | _ => .error .typeError

/-- Python v[i] for a nonnegative index. -/
def pyIndex (v : PyVal) (i : Nat) : Except PyErr PyVal :=
  match v with
  | .tup l => match l.get? i with
      | some x => .ok x
      | Option.none => .error .indexError
  | .list l => match l.get? i with
      | some x => .ok x
      | Option.none => .error .indexError
  | .str s => match s.toList.get? i with
      | some c => .ok (.str c.toString)
      | Option.none => .error .indexError
  | _ => .error .typeError

/-- Python s.startswith(pre), computed on the character lists. -/
def pyStartsWith (s pre : String) : Bool := pre.toList.isPrefixOf s.toList

/-- Python s[6:-1], the slice that extracts T from the string array[T]. -/
def pySliceArray (s : String) : String := ⟨(s.toList.drop 6).dropLast⟩

/- SemanticAnalyzer.type_compatible and SemanticAnalyzer.result_type
(src/semantic.py lines 151-176). -/

/-- type_compatible(expected, actual): equal types are compatible, and int
is accepted where double is expected. -/
def typeCompatible (expected actual : PyVal) : Bool :=
  if expected = actual then true
  else if expected = .str "double" ∧ actual = .str "int" then true
  else false

/-- result_type(op, left_type, right_type): the four arithmetic operators
widen to double when either side is double; comparisons give bool; logical
operators require bool on both sides; every other operator (including **
and %) raises SemanticError Unknown operator. -/
def result_type (op left_type right_type : PyVal) : Except PyErr PyVal :=
  if op = .str "+" ∨ op = .str "-" ∨ op = .str "*" ∨ op = .str "/" then
    if left_type = .str "double" ∨ right_type = .str "double" then .ok (.str "double")
    else .ok (.str "int")
  else if op = .str "==" ∨ op = .str "!=" ∨ op = .str "<" ∨ op = .str ">" ∨
      op = .str "<=" ∨ op = .str ">=" then
    .ok (.str "bool")
  else if op = .str "&&" ∨ op = .str "||" then
    if left_type = .str "bool" ∧ right_type = .str "bool" then .ok (.str "bool")
    else .error (.semanticError "Logical operators require boolean operands")
  else .error (.semanticError ("Unknown operator: " ++ pyStr op))

/- The analyzer handlers.  Each def analyze_X below embeds the method
SemanticAnalyzer.analyze_X of src/semantic.py.  A handler receives the
elements of the node tuple (tag included, so Python len(node) is the
length of the argument list) and, where it analyzes subnodes, the
recursive entry point rec (analyze_node at the remaining fuel).
A tuple of unexpected arity makes the Python unpacking raise ValueError. -/

def analyze_declare (l : List PyVal) : M :=
  match l with
  | [_, ty, nm] => declareSym nm ty
  | _ => mthrow .valueError

def analyze_declare_assign (rec : PyVal → M) (l : List PyVal) : M :=
  match l with
  | [_, ty, nm, e] =>
      mbind (rec e) fun et =>
        if typeCompatible ty et then declareSym nm ty
        else mthrow (.semanticError ("Type mismatch: cannot assign " ++ pyStr et ++ " to " ++ pyStr ty))
  | _ => mthrow .valueError

def analyze_assign (rec : PyVal → M) (l : List PyVal) : M :=
  match l with
  | [_, nm, _, e] =>
      mbind (lookupSymM nm) fun vt =>
      mbind (rec e) fun et =>
        if typeCompatible vt et then mret PyVal.none
        else mthrow (.semanticError ("Type mismatch in assignment: " ++ pyStr et ++ " cannot be assigned to " ++ pyStr vt))
  | _ => mthrow .valueError

/-- The list comprehension building the parameter-type list of a function
descriptor: p[1] for each parameter node p. -/
def paramTys : List PyVal → Except PyErr (List PyVal)
  | [] => .ok []
  | p :: ps =>
      match pyIndex p 1 with
      | .error e => .error e
      | .ok t =>
          match paramTys ps with
          | .error e => .error e
          | .ok ts => .ok (t :: ts)

/-- analyze_node applied to every element of a list in order, results
discarded (the analyzer for-loops over statement lists). -/
def runAll (rec : PyVal → M) : List PyVal → M
  | [] => mret PyVal.none
  | x :: xs => mbind (rec x) fun _ => runAll rec xs

/-- enter_scope / body / exit_scope bracketing as it appears inside the
handlers (the Python calls are sequential; this definition just names the
common shape). -/
def scopedM (m : M) : M :=
  mbind enterScopeM fun _ =>
  mbind m fun a =>
  mbind exitScopeM fun _ => mret a

def analyze_func_declare (rec : PyVal → M) (l : List PyVal) : M :=
  match l with
  | [_, rt, nm, params, body] =>
      mbind (mlift (pyIter params)) fun psL =>
      mbind (mlift (paramTys psL)) fun pts =>
      mbind (declareSym nm (.tup [.str "function", rt, .list pts])) fun _ =>
      mbind (scopedM (
        mbind (setCurrentFunction rt) fun _ =>
        mbind (runAll rec psL) fun _ =>
        mbind (mlift (pyIter body)) fun bodyL =>
        mbind (runAll rec bodyL) fun _ =>
        mbind (setCurrentFunction PyVal.none) fun _ => mret PyVal.none)) fun _ =>
      mret PyVal.none
  | _ => mthrow .valueError

/-- The checks analyze_return performs once the returned type is known:
error outside a function, error when the type is not compatible with the
declared return type of the current function. -/
def returnCheck (et : PyVal) : M := fun st =>
  if st.current_function = PyVal.none then
    .error (.semanticError "Return statement outside function")
  else if typeCompatible st.current_function et then .ok (PyVal.none, st)
  else .error (.semanticError ("Return type mismatch: expected " ++ pyStr st.current_function ++ ", got " ++ pyStr et))

/-- analyze_return branches on len(node): a 1-tuple is a bare return of
type void, otherwise node[1] is analyzed. -/
def analyze_return (rec : PyVal → M) (l : List PyVal) : M :=
  match l with
  | [] => mthrow .indexError
  | [_] => returnCheck (.str "void")
  | _ :: e :: _ => mbind (rec e) returnCheck

/-- The argument loop of analyze_func_call: zip(args, paramTypes), analyze
each argument, require positional compatibility. -/
def checkArgs (rec : PyVal → M) : List PyVal → List PyVal → M
  | [], _ => mret PyVal.none
  | _ :: _, [] => mret PyVal.none
  | a :: as_, pt :: pts =>
      mbind (rec a) fun argT =>
        if typeCompatible pt argT then checkArgs rec as_ pts
        else mthrow (.semanticError ("Argument type mismatch: expected " ++ pyStr pt ++ ", got " ++ pyStr argT))

def analyze_func_call (rec : PyVal → M) (l : List PyVal) : M :=
  match l with
  | [_, nm, args] =>
      mbind (lookupSymM nm) fun ft =>
      (match ft with
       | .tup [] => mthrow .indexError
       | .tup (h :: _) =>
           if h = .str "function" then
             mbind (mlift (pyLen args)) fun la =>
             mbind (mlift (pyIndex ft 2)) fun ft2 =>
             mbind (mlift (pyLen ft2)) fun lp =>
             if la ≠ lp then
               mthrow (.semanticError ("Wrong number of arguments for function " ++ pyStr nm))
             else
               mbind (mlift (pyIter args)) fun argsL =>
               mbind (mlift (pyIter ft2)) fun ptsL =>
               mbind (checkArgs rec argsL ptsL) fun _ =>
               mlift (pyIndex ft 1)
           else mthrow (.semanticError (pyStr nm ++ " is not a function"))
       | _ => mthrow (.semanticError (pyStr nm ++ " is not a function")))
  | _ => mthrow .valueError

def analyze_binop (rec : PyVal → M) (l : List PyVal) : M :=
  match l with
  | [_, op, le, re] =>
      mbind (rec le) fun lt =>
      mbind (rec re) fun rt =>
        if typeCompatible lt rt then mlift (result_type op lt rt)
        else mthrow (.semanticError ("Type mismatch in binary operation: " ++ pyStr lt ++ " " ++ pyStr op ++ " " ++ pyStr rt))
  | _ => mthrow .valueError

def analyze_id (l : List PyVal) : M :=
  match l with
  | [_, nm] => lookupSymM nm
  | _ => mthrow .valueError

def analyze_integer (_l : List PyVal) : M := mret (.str "int")

def analyze_string (_l : List PyVal) : M := mret (.str "str")

def analyze_boolean (_l : List PyVal) : M := mret (.str "bool")

def analyze_doublel (_l : List PyVal) : M := mret (.str "double")

def analyze_pass (_l : List PyVal) : M := mret PyVal.none

/-- The loop of analyze_enum_declare that declares every member with the
enum name as its type. -/
def declareItems (nm : PyVal) : List PyVal → M
  | [] => mret PyVal.none
  | it :: its => mbind (declareSym it nm) fun _ => declareItems nm its

def analyze_enum_declare (l : List PyVal) : M :=
  match l with
  | [_, nm, items] =>
      mbind (declareSym nm (.str "enum")) fun _ =>
      mbind (mlift (pyIter items)) fun itemsL =>
      declareItems nm itemsL
  | _ => mthrow .valueError

/-- analyze_node mapped over a list, collecting the analyzed types (the
list comprehension of analyze_array_lit). -/
def mapAnalyze (rec : PyVal → M) : List PyVal → MProg (List PyVal)
  | [] => mret []
  | x :: xs =>
      mbind (rec x) fun t =>
      mbind (mapAnalyze rec xs) fun ts => mret (t :: ts)

/-- analyze_array_lit: all item types must equal the first one; the result
is the string type array[T].  On an empty literal the all(...) check is
vacuously true and the subsequent item_types[0] raises IndexError. -/
def analyze_array_lit (rec : PyVal → M) (l : List PyVal) : M :=
  match l with
  | [_, items] =>
      mbind (mlift (pyIter items)) fun itemsL =>
      mbind (mapAnalyze rec itemsL) fun ts =>
        match ts with
        | [] => mthrow .indexError
        | t0 :: _ =>
            if ts.all (fun t => pyBeq t t0) then
              mret (.str ("array[" ++ pyStr t0 ++ "]"))
            else mthrow (.semanticError "Array elements must be of the same type")
  | _ => mthrow .valueError

def analyze_index (rec : PyVal → M) (l : List PyVal) : M :=
  match l with
  | [_, arr, idx] =>
      mbind (rec arr) fun arrT =>
      mbind (rec idx) fun idxT =>
        match arrT with
        | .str s =>
            if pyStartsWith s "array[" then
              if idxT = .str "int" then mret (.str (pySliceArray s))
              else mthrow (.semanticError "Array index must be an integer")
            else mthrow (.semanticError "Indexing is only supported on arrays")
        | _ => mthrow .attributeError
  | _ => mthrow .valueError

def analyze_spread (rec : PyVal → M) (l : List PyVal) : M :=
  match l with
  | [_, e] =>
      mbind (rec e) fun et =>
        match et with
        | .str s =>
            if pyStartsWith s "array[" then mret (.str s)
            else mthrow (.semanticError "Spread operator is only supported on arrays")
        | _ => mthrow .attributeError
  | _ => mthrow .valueError

def analyze_modifier (rec : PyVal → M) (l : List PyVal) : M :=
  match l with
  | [_, e] => rec e
  | _ => mthrow .valueError

def analyze_when_stmt (rec : PyVal → M) (l : List PyVal) : M :=
  match l with
  | [_, blocks] =>
      mbind (mlift (pyIter blocks)) fun bl =>
      mbind (runAll rec bl) fun _ => mret PyVal.none
  | _ => mthrow .valueError

/-- analyze_loop: the declared loop variable and the iterable are analyzed
in the enclosing scope; the iterable type must be an array string; then a
scope is pushed and analyze_node is applied to the body, which is a Python
list and therefore returns immediately. -/
def analyze_loop (rec : PyVal → M) (l : List PyVal) : M :=
  match l with
  | [_, vd, iter, body] =>
      mbind (rec vd) fun _ =>
      mbind (rec iter) fun it =>
        match it with
        | .str s =>
            if pyStartsWith s "array[" then
              mbind (scopedM (rec body)) fun _ => mret PyVal.none
            else mthrow (.semanticError "Loop iterable must be an array")
        | _ => mthrow .attributeError
  | _ => mthrow .valueError

def analyze_until (rec : PyVal → M) (l : List PyVal) : M :=
  match l with
  | [_, cond, body] =>
      mbind (rec cond) fun ct =>
        if ct = .str "bool" then
          mbind (scopedM (rec body)) fun _ => mret PyVal.none
        else mthrow (.semanticError "Until condition must be a boolean")
  | _ => mthrow .valueError

def analyze_unary (rec : PyVal → M) (l : List PyVal) : M :=
  match l with
  | [_, op, operand] =>
      mbind (rec operand) fun ot =>
        if op = .str "++" ∨ op = .str "--" then
          if ot = .str "int" then mret (.str "int")
          else mthrow (.semanticError ("Unary operator " ++ pyStr op ++ " requires integer operand"))
        else mthrow (.semanticError ("Unknown unary operator: " ++ pyStr op))
  | _ => mthrow .valueError

def analyze_logic_not (rec : PyVal → M) (l : List PyVal) : M :=
  match l with
  | [_, e] =>
      mbind (rec e) fun et =>
        if et = .str "bool" then mret (.str "bool")
        else mthrow (.semanticError "Logical NOT operator requires boolean operand")
  | _ => mthrow .valueError

def analyze_logic_and (rec : PyVal → M) (l : List PyVal) : M :=
  match l with
  | [_, le, re] =>
      mbind (rec le) fun lt =>
      mbind (rec re) fun rt =>
        if lt ≠ .str "bool" ∨ rt ≠ .str "bool" then
          mthrow (.semanticError "Logical AND operator requires boolean operands")
        else mret (.str "bool")
  | _ => mthrow .valueError

def analyze_logic_or (rec : PyVal → M) (l : List PyVal) : M :=
  match l with
  | [_, le, re] =>
      mbind (rec le) fun lt =>
      mbind (rec re) fun rt =>
        if lt ≠ .str "bool" ∨ rt ≠ .str "bool" then
          mthrow (.semanticError "Logical OR operator requires boolean operands")
        else mret (.str "bool")
  | _ => mthrow .valueError

def analyze_comop (rec : PyVal → M) (l : List PyVal) : M :=
  match l with
  | [_, op, le, re] =>
      mbind (rec le) fun lt =>
      mbind (rec re) fun rt =>
        if typeCompatible lt rt then mret (.str "bool")
        else mthrow (.semanticError ("Type mismatch in comparison: " ++ pyStr lt ++ " " ++ pyStr op ++ " " ++ pyStr rt))
  | _ => mthrow .valueError

def analyze_conop (rec : PyVal → M) (l : List PyVal) : M :=
  match l with
  | [_, c, a, b] =>
      mbind (rec c) fun ct =>
      mbind (rec a) fun tt =>
      mbind (rec b) fun ft =>
        if ct ≠ .str "bool" then
          mthrow (.semanticError "Conditional operator requires boolean condition")
        else if typeCompatible tt ft then mret tt
        else mthrow (.semanticError ("Type mismatch in conditional operator: " ++ pyStr tt ++ " vs " ++ pyStr ft))
  | _ => mthrow .valueError

def analyze_cast (rec : PyVal → M) (l : List PyVal) : M :=
  match l with
  | [_, tgt, e] => mbind (rec e) fun _ => mret tgt
  | _ => mthrow .valueError

def analyze_range (rec : PyVal → M) (l : List PyVal) : M :=
  match l with
  | [_, s, e] =>
      mbind (rec s) fun st_ =>
      mbind (rec e) fun et =>
        if st_ ≠ .str "int" ∨ et ≠ .str "int" then
          mthrow (.semanticError "Range bounds must be integers")
        else mret (.str "range")
  | _ => mthrow .valueError

/-- The dynamic dispatch of SemanticAnalyzer.analyze_node: the tag string
of the node tuple selects the handler method analyze_TAG; a tag with no
handler raises SemanticError Unknown node type.  The tag "node" resolves
to analyze_node itself (Python getattr finds the dispatcher), which is the
recursion rec.  The parser-emitted tags when, when_default, access,
struct, struct_ctor and lambda_func have no handler. -/
def dispatchAnalyze (rec : PyVal → M) (s : String) (l : List PyVal) : M :=
  match s with
  | "declare" => analyze_declare l
  | "declare_assign" => analyze_declare_assign rec l
  | "assign" => analyze_assign rec l
  | "func_declare" => analyze_func_declare rec l
  | "return" => analyze_return rec l
  | "func_call" => analyze_func_call rec l
  | "binop" => analyze_binop rec l
  | "id" => analyze_id l
  | "integer" => analyze_integer l
  | "string" => analyze_string l
  | "boolean" => analyze_boolean l
  | "doublel" => analyze_doublel l
  | "enum_declare" => analyze_enum_declare l
  | "array_lit" => analyze_array_lit rec l
  | "index" => analyze_index rec l
  | "spread" => analyze_spread rec l
  | "modifier" => analyze_modifier rec l
  | "pass" => analyze_pass l
  | "when_stmt" => analyze_when_stmt rec l
  | "loop" => analyze_loop rec l
  | "until" => analyze_until rec l
  | "unary" => analyze_unary rec l
  | "logic_not" => analyze_logic_not rec l
  | "logic_and" => analyze_logic_and rec l
  | "logic_or" => analyze_logic_or rec l
  | "comop" => analyze_comop rec l
  | "conop" => analyze_conop rec l
  | "cast" => analyze_cast rec l
  | "range" => analyze_range rec l
  | "node" => rec (.tup l)
  | _ => mthrow (.semanticError ("Unknown node type: " ++ s))

/-- One step of SemanticAnalyzer.analyze_node: non-tuples return None
immediately; an empty tuple raises IndexError at node[0]; a tuple whose
tag is not a string has no handler attribute and raises the
Unknown-node-type SemanticError; otherwise dispatch on the tag. -/
def analyzeStep (rec : PyVal → M) (node : PyVal) : M :=
  match node with
  | .tup [] => mthrow .indexError
  | .tup (PyVal.str s :: rest) => dispatchAnalyze rec s (PyVal.str s :: rest)
  | .tup (t :: _) => mthrow (.semanticError ("Unknown node type: " ++ pyStr t))
  | _ => mret PyVal.none

/-- SemanticAnalyzer.analyze_node with a fuel bound on the recursion
depth (the Python original has no bound; fuel exhaustion models
nontermination and never occurs on parser output at sufficient fuel). -/
def analyzeNode (fuel : Nat) : PyVal → M :=
  Nat.rec (motive := fun _ => PyVal → M)
    (fun _ => mthrow .outOfFuel)
    (fun _ ih => analyzeStep ih)
    fuel

theorem analyzeNode_zero : analyzeNode 0 = fun _ => mthrow .outOfFuel := rfl

theorem analyzeNode_succ (f : Nat) : analyzeNode (f + 1) = analyzeStep (analyzeNode f) := rfl

/-- SemanticAnalyzer.analyze: analyze_node on every top-level node of the
program in order. -/
def analyze (fuel : Nat) (ast : List PyVal) : M := runAll (analyzeNode fuel) ast

/- Models of the parser actions of src/parser.py that the claims refer
to.  A ply action receives the production slice p, with p[0] the result
slot, so len(p) is one more than the number of matched symbols; the
models below take the slice (index 0 included) where that length matters,
and the matched payloads directly otherwise. -/

/-- p_return_stmt (src/parser.py lines 156-164): the action tests
len(p) == 1, but the slice of the production return_stmt : RETURN has
length 2 and that of return_stmt : RETURN expr has length 3, so the
len(p) == 1 branch is unreachable and a bare return evaluates p[2],
which raises IndexError on the 2-element slice. -/
def p_return_stmt (pslice : List PyVal) : Except PyErr PyVal :=
  if pslice.length = 1 then .ok (.tup [.str "return"])
  else
    match pslice.get? 2 with
    | some v => .ok (.tup [.str "return", v])
    | Option.none => .error .indexError

/-- p_when_block: when_block : WHEN expr COLON block. -/
def p_when_block (cond block : PyVal) : PyVal := .tup [.str "when", cond, block]

/-- p_when_stmt for the branch without a default block. -/
def p_when_stmt (blocks : List PyVal) : PyVal := .tup [.str "when_stmt", .list blocks]

/-- p_default_block: default_block : DEFAULT COLON block. -/
def p_default_block (block : PyVal) : PyVal := .tup [.str "when_default", block]

/-- p_expr_access: expr : expr DOT expr. -/
def p_expr_access (obj member : PyVal) : PyVal := .tup [.str "access", obj, member]

/-- p_struct for the branch without extends. -/
def p_struct (nm body : PyVal) : PyVal := .tup [.str "struct", nm, .list [], body]

/-- p_expr_unary: expr : DOUBLE_PLUS ID and expr : DOUBLE_MINUS ID; note
that p[2] is the raw identifier string of the ID token, not an id node. -/
def p_expr_unary (op idval : PyVal) : PyVal := .tup [.str "unary", op, idval]

/-- p_loop_stmt: loop_stmt : LOOP declare IN expr COLON block. -/
def p_loop_stmt (decl iter block : PyVal) : PyVal := .tup [.str "loop", decl, iter, block]

/-- The single-quote character, used by the p_error message format. -/
def sq : String := (Char.ofNat 39).toString

/-- A ply token as p_error sees it (only the value attribute is used). -/
structure LexToken where
  value : PyVal

/-- p_error (src/parser.py lines 431-435): on a syntax error ply calls
this hook with the offending token (or None at EOF).  The hook prints a
diagnostic and returns None; it raises nothing, so the first component is
the printed text and the second the normal completion of the call. -/
def p_error (p : Option LexToken) : String × Except PyErr PyVal :=
  match p with
  | some t => ("Syntax error at " ++ sq ++ pyStr t.value ++ sq, .ok PyVal.none)
  | Option.none => ("Syntax error at EOF", .ok PyVal.none)

/- Inversion lemmas for the computation combinators. -/

theorem mbind_ok {α β : Type} {m : MProg α} {k : α → MProg β} {st : Analyzer} {b : β}
    {st' : Analyzer} :
    mbind m k st = .ok (b, st') ↔ ∃ a st1, m st = .ok (a, st1) ∧ k a st1 = .ok (b, st') := by
  unfold mbind
  cases h : m st with
  | error e => simp
  | ok p =>
      cases p with
      | mk a st1 =>
          simp only [Except.ok.injEq, Prod.mk.injEq]
          constructor
          · intro h2
            exact ⟨a, st1, ⟨rfl, rfl⟩, h2⟩
          · rintro ⟨a1, st2, ⟨rfl, rfl⟩, h2⟩
            exact h2

theorem mbind_err_left {α β : Type} {m : MProg α} (k : α → MProg β) {st : Analyzer} {e : PyErr}
    (h : m st = .error e) : mbind m k st = .error e := by
  unfold mbind
  rw [h]

theorem mbind_err_right {α β : Type} {m : MProg α} (k : α → MProg β) {st st1 : Analyzer}
    {a : α} {e : PyErr} (h : m st = .ok (a, st1)) (h2 : k a st1 = .error e) :
    mbind m k st = .error e := by
  unfold mbind
  rw [h]
  exact h2

theorem mlift_ok {α : Type} {r : Except PyErr α} {st st' : Analyzer} {a : α} :
    mlift r st = .ok (a, st') ↔ r = .ok a ∧ st' = st := by
  unfold mlift
  cases r <;> simp
  exact fun _ => eq_comm

/- Dictionary lemmas. -/

theorem dictHas_cons (k k0 v0 : PyVal) (d : Scope) :
    dictHas k ((k0, v0) :: d) = if k0 = k then true else dictHas k d := by
  by_cases hk : k0 = k <;> simp [dictHas, dictGet?, hk]

theorem dictSet_not_has {k : PyVal} {d : Scope} (v : PyVal) (h : dictHas k d = false) :
    dictSet k v d = d ++ [(k, v)] := by
  induction d with
  | nil => rfl
  | cons kv d ih =>
      cases kv with
      | mk k0 v0 =>
          rw [dictHas_cons] at h
          by_cases hk : k0 = k
          · simp [hk] at h
          · simp only [if_neg hk] at h
            simp only [dictSet, if_neg hk, List.cons_append, List.cons.injEq, true_and]
            exact ih h

theorem dictGet?_append_left {k : PyVal} {d1 : Scope} (d2 : Scope) {v : PyVal}
    (h : dictGet? k d1 = some v) : dictGet? k (d1 ++ d2) = some v := by
  induction d1 with
  | nil => simp [dictGet?] at h
  | cons kv d ih =>
      cases kv with
      | mk k0 v0 =>
          simp only [List.cons_append, dictGet?] at h ⊢
          by_cases hk : k0 = k
          · simpa [hk] using h
          · simp only [if_neg hk] at h ⊢
            exact ih h

theorem dictGet?_append_right {k : PyVal} {d1 : Scope} (d2 : Scope)
    (h : dictGet? k d1 = Option.none) : dictGet? k (d1 ++ d2) = dictGet? k d2 := by
  induction d1 with
  | nil => rfl
  | cons kv d ih =>
      cases kv with
      | mk k0 v0 =>
          simp only [List.cons_append, dictGet?] at h ⊢
          by_cases hk : k0 = k
          · simp [hk] at h
          · simp only [if_neg hk] at h ⊢
            exact ih h

theorem dictGet?_set_self (k v : PyVal) (d : Scope) : dictGet? k (dictSet k v d) = some v := by
  induction d with
  | nil => simp [dictSet, dictGet?]
  | cons kv d ih =>
      cases kv with
      | mk k0 v0 =>
          by_cases hk : k0 = k
          · simp [dictSet, dictGet?, hk]
          · simp [dictSet, dictGet?, hk, ih]

/- The scope-frame invariant: a successful analyzer computation leaves
every scope except the innermost one untouched, and only appends to the
innermost scope, each appended binding having a key that was not present
before.  This is the formal content of the statement that declarations go
to the scope that was current when the computation started, and that
scopes are pushed and popped in balanced pairs. -/

def ScopeExt : List Scope → List Scope → Prop
  | [], s2 => s2 = []
  | top :: rest, s2 =>
      ∃ added, s2 = (top ++ added) :: rest ∧ ∀ kv ∈ added, dictHas kv.1 top = false

theorem scopeExt_refl : ∀ s, ScopeExt s s
  | [] => rfl
  | top :: _ => ⟨[], by simp, by simp⟩

theorem scopeExt_trans {s1 s2 s3 : List Scope} (h1 : ScopeExt s1 s2) (h2 : ScopeExt s2 s3) :
    ScopeExt s1 s3 := by
  cases s1 with
  | nil =>
      unfold ScopeExt at h1
      subst h1
      exact h2
  | cons top rest =>
      obtain ⟨a1, he1, hd1⟩ := h1
      subst he1
      obtain ⟨a2, he2, hd2⟩ := h2
      subst he2
      refine ⟨a1 ++ a2, by simp, ?_⟩
      intro kv hkv
      rcases List.mem_append.mp hkv with h | h
      · exact hd1 kv h
      · have := hd2 kv h
        unfold dictHas at this ⊢
        cases hg : dictGet? kv.1 top with
        | none => rfl
        | some v => rw [dictGet?_append_left a1 hg] at this; simp at this

def Frame {α : Type} (m : MProg α) : Prop :=
  ∀ st a st', m st = .ok (a, st') → ScopeExt st.scopes st'.scopes

theorem frame_mret {α : Type} (a : α) : Frame (mret a) := by
  intro st b st' h
  unfold mret at h
  cases h
  exact scopeExt_refl _

theorem frame_mthrow {α : Type} (e : PyErr) : Frame (mthrow (α := α) e) := by
  intro st b st' h
  cases h

theorem frame_mlift {α : Type} (r : Except PyErr α) : Frame (mlift r) := by
  intro st b st' h
  rcases mlift_ok.mp h with ⟨_, rfl⟩
  exact scopeExt_refl _

theorem frame_mbind {α β : Type} {m : MProg α} {k : α → MProg β}
    (hm : Frame m) (hk : ∀ a, Frame (k a)) : Frame (mbind m k) := by
  intro st b st' h
  rcases mbind_ok.mp h with ⟨a, st1, h1, h2⟩
  exact scopeExt_trans (hm st a st1 h1) (hk a st1 b st' h2)

/-- Any computation that leaves the scopes stack unchanged on success
preserves the frame. -/
theorem frame_of_scopes_id {α : Type} {m : MProg α}
    (h : ∀ st a st', m st = .ok (a, st') → st'.scopes = st.scopes) : Frame m := by
  intro st a st' hm
  rw [h st a st' hm]
  exact scopeExt_refl _

theorem frame_lookupSymM (nm : PyVal) : Frame (lookupSymM nm) := by
  apply frame_of_scopes_id
  intro st a st' h
  unfold lookupSymM at h
  cases hl : lookupScopes nm st.scopes with
  | none => rw [hl] at h; cases h
  | some v => rw [hl] at h; cases h; rfl

theorem frame_returnCheck (et : PyVal) : Frame (returnCheck et) := by
  apply frame_of_scopes_id
  intro st a st' h
  unfold returnCheck at h
  split at h
  · cases h
  · split at h
    · cases h; rfl
    · cases h

theorem frame_setCurrentFunction (v : PyVal) : Frame (setCurrentFunction v) := by
  apply frame_of_scopes_id
  intro st a st' h
  cases h
  rfl

theorem frame_declareSym (nm ty : PyVal) : Frame (declareSym nm ty) := by
  intro st a st' h
  obtain ⟨scopes, cf⟩ := st
  cases scopes with
  | nil => simp [declareSym] at h
  | cons top rest =>
      simp only [declareSym] at h
      split at h
      · cases h
      · rename_i hh
        cases h
        refine ⟨[(nm, ty)], ?_, ?_⟩
        · simp [dictSet_not_has ty (Bool.eq_false_iff.mpr hh)]
        · intro kv hkv
          simp at hkv
          rw [hkv]
          exact Bool.eq_false_iff.mpr hh

theorem frame_scopedM {m : M} (hm : Frame m) : Frame (scopedM m) := by
  intro st a st' h
  unfold scopedM at h
  rcases mbind_ok.mp h with ⟨u1, st1, h1, h⟩
  rcases mbind_ok.mp h with ⟨a2, st2, h2, h⟩
  rcases mbind_ok.mp h with ⟨u3, st3, h3, h4⟩
  unfold enterScopeM at h1
  cases h1
  have hext := hm _ _ _ h2
  obtain ⟨added, he, _⟩ := (show ScopeExt ([] :: st.scopes) st2.scopes from hext)
  unfold exitScopeM at h3
  rw [he] at h3
  simp only [List.nil_append] at h3
  cases h3
  unfold mret at h4
  cases h4
  exact scopeExt_refl _

theorem frame_runAll {rec : PyVal → M} (hrec : ∀ n, Frame (rec n)) :
    ∀ l, Frame (runAll rec l) := by
  intro l
  induction l with
  | nil => exact frame_mret _
  | cons x xs ih => exact frame_mbind (hrec x) (fun _ => ih)

theorem frame_mapAnalyze {rec : PyVal → M} (hrec : ∀ n, Frame (rec n)) :
    ∀ l, Frame (mapAnalyze rec l) := by
  intro l
  induction l with
  | nil => exact frame_mret _
  | cons x xs ih =>
      exact frame_mbind (hrec x) (fun _ => frame_mbind ih (fun _ => frame_mret _))

theorem frame_checkArgs {rec : PyVal → M} (hrec : ∀ n, Frame (rec n)) :
    ∀ as_ pts, Frame (checkArgs rec as_ pts) := by
  intro as_
  induction as_ with
  | nil => intro pts; exact frame_mret _
  | cons a as2 ih =>
      intro pts
      cases pts with
      | nil => exact frame_mret _
      | cons pt pts2 =>
          have heq : checkArgs rec (a :: as2) (pt :: pts2) =
              mbind (rec a) (fun argT =>
                if typeCompatible pt argT then checkArgs rec as2 pts2
                else mthrow (.semanticError ("Argument type mismatch: expected " ++ pyStr pt ++ ", got " ++ pyStr argT))) := rfl
          rw [heq]
          refine frame_mbind (hrec a) (fun argT => ?_)
          split
          · exact ih pts2
          · exact frame_mthrow _

theorem frame_declareItems (nm : PyVal) : ∀ l, Frame (declareItems nm l) := by
  intro l
  induction l with
  | nil => exact frame_mret _
  | cons it its ih => exact frame_mbind (frame_declareSym it nm) (fun _ => ih)

/- Frame lemmas, one per handler. -/

theorem frame_analyze_declare (l : List PyVal) : Frame (analyze_declare l) := by
  unfold analyze_declare
  split
  · exact frame_declareSym _ _
  · exact frame_mthrow _

theorem frame_analyze_declare_assign {rec : PyVal → M} (hrec : ∀ n, Frame (rec n))
    (l : List PyVal) : Frame (analyze_declare_assign rec l) := by
  unfold analyze_declare_assign
  split
  · refine frame_mbind (hrec _) (fun et => ?_)
    split
    · exact frame_declareSym _ _
    · exact frame_mthrow _
  · exact frame_mthrow _

theorem frame_analyze_assign {rec : PyVal → M} (hrec : ∀ n, Frame (rec n))
    (l : List PyVal) : Frame (analyze_assign rec l) := by
  unfold analyze_assign
  split
  · refine frame_mbind (frame_lookupSymM _) (fun vt => ?_)
    refine frame_mbind (hrec _) (fun et => ?_)
    split
    · exact frame_mret _
    · exact frame_mthrow _
  · exact frame_mthrow _

theorem frame_analyze_func_declare {rec : PyVal → M} (hrec : ∀ n, Frame (rec n))
    (l : List PyVal) : Frame (analyze_func_declare rec l) := by
  unfold analyze_func_declare
  split
  · refine frame_mbind (frame_mlift _) (fun psL => ?_)
    refine frame_mbind (frame_mlift _) (fun pts => ?_)
    refine frame_mbind (frame_declareSym _ _) (fun _ => ?_)
    refine frame_mbind (frame_scopedM ?_) (fun _ => frame_mret _)
    refine frame_mbind (frame_setCurrentFunction _) (fun _ => ?_)
    refine frame_mbind (frame_runAll hrec _) (fun _ => ?_)
    refine frame_mbind (frame_mlift _) (fun bodyL => ?_)
    refine frame_mbind (frame_runAll hrec _) (fun _ => ?_)
    exact frame_mbind (frame_setCurrentFunction _) (fun _ => frame_mret _)
  · exact frame_mthrow _

theorem frame_analyze_return {rec : PyVal → M} (hrec : ∀ n, Frame (rec n))
    (l : List PyVal) : Frame (analyze_return rec l) := by
  unfold analyze_return
  split
  · exact frame_mthrow _
  · exact frame_returnCheck _
  · exact frame_mbind (hrec _) (fun et => frame_returnCheck et)

theorem frame_analyze_func_call {rec : PyVal → M} (hrec : ∀ n, Frame (rec n))
    (l : List PyVal) : Frame (analyze_func_call rec l) := by
  unfold analyze_func_call
  split
  · refine frame_mbind (frame_lookupSymM _) (fun ft => ?_)
    split
    · exact frame_mthrow _
    · split
      · refine frame_mbind (frame_mlift _) (fun la => ?_)
        refine frame_mbind (frame_mlift _) (fun ft2 => ?_)
        refine frame_mbind (frame_mlift _) (fun lp => ?_)
        split
        · exact frame_mthrow _
        · refine frame_mbind (frame_mlift _) (fun argsL => ?_)
          refine frame_mbind (frame_mlift _) (fun ptsL => ?_)
          exact frame_mbind (frame_checkArgs hrec _ _) (fun _ => frame_mlift _)
      · exact frame_mthrow _
    · exact frame_mthrow _
  · exact frame_mthrow _

theorem frame_analyze_binop {rec : PyVal → M} (hrec : ∀ n, Frame (rec n))
    (l : List PyVal) : Frame (analyze_binop rec l) := by
  unfold analyze_binop
  split
  · refine frame_mbind (hrec _) (fun lt => ?_)
    refine frame_mbind (hrec _) (fun rt => ?_)
    split
    · exact frame_mlift _
    · exact frame_mthrow _
  · exact frame_mthrow _

theorem frame_analyze_id (l : List PyVal) : Frame (analyze_id l) := by
  unfold analyze_id
  split
  · exact frame_lookupSymM _
  · exact frame_mthrow _

theorem frame_analyze_enum_declare (l : List PyVal) : Frame (analyze_enum_declare l) := by
  unfold analyze_enum_declare
  split
  · refine frame_mbind (frame_declareSym _ _) (fun _ => ?_)
    exact frame_mbind (frame_mlift _) (fun itemsL => frame_declareItems _ _)
  · exact frame_mthrow _

theorem frame_analyze_array_lit {rec : PyVal → M} (hrec : ∀ n, Frame (rec n))
    (l : List PyVal) : Frame (analyze_array_lit rec l) := by
  unfold analyze_array_lit
  split
  · refine frame_mbind (frame_mlift _) (fun itemsL => ?_)
    refine frame_mbind (frame_mapAnalyze hrec _) (fun ts => ?_)
    split
    · exact frame_mthrow _
    · split
      · exact frame_mret _
      · exact frame_mthrow _
  · exact frame_mthrow _

theorem frame_analyze_index {rec : PyVal → M} (hrec : ∀ n, Frame (rec n))
    (l : List PyVal) : Frame (analyze_index rec l) := by
  unfold analyze_index
  split
  · refine frame_mbind (hrec _) (fun arrT => ?_)
    refine frame_mbind (hrec _) (fun idxT => ?_)
    split
    · split
      · split
        · exact frame_mret _
        · exact frame_mthrow _
      · exact frame_mthrow _
    · exact frame_mthrow _
  · exact frame_mthrow _

theorem frame_analyze_spread {rec : PyVal → M} (hrec : ∀ n, Frame (rec n))
    (l : List PyVal) : Frame (analyze_spread rec l) := by
  unfold analyze_spread
  split
  · refine frame_mbind (hrec _) (fun et => ?_)
    split
    · split
      · exact frame_mret _
      · exact frame_mthrow _
    · exact frame_mthrow _
  · exact frame_mthrow _

theorem frame_analyze_modifier {rec : PyVal → M} (hrec : ∀ n, Frame (rec n))
    (l : List PyVal) : Frame (analyze_modifier rec l) := by
  unfold analyze_modifier
  split
  · exact hrec _
  · exact frame_mthrow _

theorem frame_analyze_when_stmt {rec : PyVal → M} (hrec : ∀ n, Frame (rec n))
    (l : List PyVal) : Frame (analyze_when_stmt rec l) := by
  unfold analyze_when_stmt
  split
  · refine frame_mbind (frame_mlift _) (fun bl => ?_)
    exact frame_mbind (frame_runAll hrec _) (fun _ => frame_mret _)
  · exact frame_mthrow _

theorem frame_analyze_loop {rec : PyVal → M} (hrec : ∀ n, Frame (rec n))
    (l : List PyVal) : Frame (analyze_loop rec l) := by
  unfold analyze_loop
  split
  · refine frame_mbind (hrec _) (fun _ => ?_)
    refine frame_mbind (hrec _) (fun it => ?_)
    split
    · split
      · exact frame_mbind (frame_scopedM (hrec _)) (fun _ => frame_mret _)
      · exact frame_mthrow _
    · exact frame_mthrow _
  · exact frame_mthrow _

theorem frame_analyze_until {rec : PyVal → M} (hrec : ∀ n, Frame (rec n))
    (l : List PyVal) : Frame (analyze_until rec l) := by
  unfold analyze_until
  split
  · refine frame_mbind (hrec _) (fun ct => ?_)
    split
    · exact frame_mbind (frame_scopedM (hrec _)) (fun _ => frame_mret _)
    · exact frame_mthrow _
  · exact frame_mthrow _

theorem frame_analyze_unary {rec : PyVal → M} (hrec : ∀ n, Frame (rec n))
    (l : List PyVal) : Frame (analyze_unary rec l) := by
  unfold analyze_unary
  split
  · refine frame_mbind (hrec _) (fun ot => ?_)
    split
    · split
      · exact frame_mret _
      · exact frame_mthrow _
    · exact frame_mthrow _
  · exact frame_mthrow _

theorem frame_analyze_logic_not {rec : PyVal → M} (hrec : ∀ n, Frame (rec n))
    (l : List PyVal) : Frame (analyze_logic_not rec l) := by
  unfold analyze_logic_not
  split
  · refine frame_mbind (hrec _) (fun et => ?_)
    split
    · exact frame_mret _
    · exact frame_mthrow _
  · exact frame_mthrow _

theorem frame_analyze_logic_and {rec : PyVal → M} (hrec : ∀ n, Frame (rec n))
    (l : List PyVal) : Frame (analyze_logic_and rec l) := by
  unfold analyze_logic_and
  split
  · refine frame_mbind (hrec _) (fun lt => ?_)
    refine frame_mbind (hrec _) (fun rt => ?_)
    split
    · exact frame_mthrow _
    · exact frame_mret _
  · exact frame_mthrow _

theorem frame_analyze_logic_or {rec : PyVal → M} (hrec : ∀ n, Frame (rec n))
    (l : List PyVal) : Frame (analyze_logic_or rec l) := by
  unfold analyze_logic_or
  split
  · refine frame_mbind (hrec _) (fun lt => ?_)
    refine frame_mbind (hrec _) (fun rt => ?_)
    split
    · exact frame_mthrow _
    · exact frame_mret _
  · exact frame_mthrow _

theorem frame_analyze_comop {rec : PyVal → M} (hrec : ∀ n, Frame (rec n))
    (l : List PyVal) : Frame (analyze_comop rec l) := by
  unfold analyze_comop
  split
  · refine frame_mbind (hrec _) (fun lt => ?_)
    refine frame_mbind (hrec _) (fun rt => ?_)
    split
    · exact frame_mret _
    · exact frame_mthrow _
  · exact frame_mthrow _

theorem frame_analyze_conop {rec : PyVal → M} (hrec : ∀ n, Frame (rec n))
    (l : List PyVal) : Frame (analyze_conop rec l) := by
  unfold analyze_conop
  split
  · refine frame_mbind (hrec _) (fun ct => ?_)
    refine frame_mbind (hrec _) (fun tt_ => ?_)
    refine frame_mbind (hrec _) (fun ft => ?_)
    split
    · exact frame_mthrow _
    · split
      · exact frame_mret _
      · exact frame_mthrow _
  · exact frame_mthrow _

theorem frame_analyze_cast {rec : PyVal → M} (hrec : ∀ n, Frame (rec n))
    (l : List PyVal) : Frame (analyze_cast rec l) := by
  unfold analyze_cast
  split
  · exact frame_mbind (hrec _) (fun _ => frame_mret _)
  · exact frame_mthrow _

theorem frame_analyze_range {rec : PyVal → M} (hrec : ∀ n, Frame (rec n))
    (l : List PyVal) : Frame (analyze_range rec l) := by
  unfold analyze_range
  split
  · refine frame_mbind (hrec _) (fun st_ => ?_)
    refine frame_mbind (hrec _) (fun et => ?_)
    split
    · exact frame_mthrow _
    · exact frame_mret _
  · exact frame_mthrow _

theorem frame_dispatchAnalyze {rec : PyVal → M} (hrec : ∀ n, Frame (rec n))
    (s : String) (l : List PyVal) : Frame (dispatchAnalyze rec s l) := by
  unfold dispatchAnalyze
  split
  · exact frame_analyze_declare _
  · exact frame_analyze_declare_assign hrec _
  · exact frame_analyze_assign hrec _
  · exact frame_analyze_func_declare hrec _
  · exact frame_analyze_return hrec _
  · exact frame_analyze_func_call hrec _
  · exact frame_analyze_binop hrec _
  · exact frame_analyze_id _
  · exact frame_mret _
  · exact frame_mret _
  · exact frame_mret _
  · exact frame_mret _
  · exact frame_analyze_enum_declare _
  · exact frame_analyze_array_lit hrec _
  · exact frame_analyze_index hrec _
  · exact frame_analyze_spread hrec _
  · exact frame_analyze_modifier hrec _
  · exact frame_mret _
  · exact frame_analyze_when_stmt hrec _
  · exact frame_analyze_loop hrec _
  · exact frame_analyze_until hrec _
  · exact frame_analyze_unary hrec _
  · exact frame_analyze_logic_not hrec _
  · exact frame_analyze_logic_and hrec _
  · exact frame_analyze_logic_or hrec _
  · exact frame_analyze_comop hrec _
  · exact frame_analyze_conop hrec _
  · exact frame_analyze_cast hrec _
  · exact frame_analyze_range hrec _
  · exact hrec _
  · exact frame_mthrow _

theorem frame_analyzeStep {rec : PyVal → M} (hrec : ∀ n, Frame (rec n))
    (node : PyVal) : Frame (analyzeStep rec node) := by
  unfold analyzeStep
  split
  · exact frame_mthrow _
  · exact frame_dispatchAnalyze hrec _ _
  · exact frame_mthrow _
  · exact frame_mret _

/-- The frame theorem: a successful run of analyze_node (at any fuel)
only appends fresh bindings to the scope that was innermost when it
started, and leaves all enclosing scopes untouched. -/
theorem frame_analyzeNode : ∀ fuel node, Frame (analyzeNode fuel node) := by
  intro fuel
  induction fuel with
  | zero => intro node; rw [analyzeNode_zero]; exact frame_mthrow _
  | succ f ih =>
      intro node
      rw [analyzeNode_succ]
      exact frame_analyzeStep ih node

/- Helper lemmas for the claim proofs. -/

/-- A successful enter/body/exit bracket restores exactly the scopes
stack it started from (the pushed scope absorbs every declaration of the
body and is popped). -/
theorem scopedM_ok_scopes {m : M} (hm : Frame m) {st : Analyzer} {r : PyVal} {st1 : Analyzer}
    (h : scopedM m st = .ok (r, st1)) : st1.scopes = st.scopes := by
  unfold scopedM at h
  rcases mbind_ok.mp h with ⟨u1, s1, h1, h⟩
  rcases mbind_ok.mp h with ⟨a2, s2, h2, h⟩
  rcases mbind_ok.mp h with ⟨u3, s3, h3, h4⟩
  unfold enterScopeM at h1
  cases h1
  have hext := hm _ _ _ h2
  obtain ⟨added, he, _⟩ := (show ScopeExt ([] :: st.scopes) s2.scopes from hext)
  unfold exitScopeM at h3
  rw [he] at h3
  simp only [List.nil_append] at h3
  cases h3
  unfold mret at h4
  cases h4
  rfl

theorem lookupSymM_found {nm v : PyVal} {st : Analyzer}
    (h : lookupScopes nm st.scopes = some v) : lookupSymM nm st = .ok (v, st) := by
  unfold lookupSymM
  rw [h]

theorem lookupScopes_none {n : PyVal} :
    ∀ scopes, (∀ sc ∈ scopes, dictGet? n sc = Option.none) →
      lookupScopes n scopes = Option.none := by
  intro scopes
  induction scopes with
  | nil => intro _; rfl
  | cons sc rest ih =>
      intro h
      unfold lookupScopes
      rw [h sc (by simp)]
      exact ih (fun s hs => h s (by simp [hs]))

theorem lookupScopes_append_found {n v : PyVal} :
    ∀ pre sc post, (∀ s1 ∈ pre, dictGet? n s1 = Option.none) → dictGet? n sc = some v →
      lookupScopes n (pre ++ sc :: post) = some v := by
  intro pre
  induction pre with
  | nil =>
      intro sc post _ hf
      simp only [List.nil_append]
      unfold lookupScopes
      rw [hf]
  | cons s0 pre2 ih =>
      intro sc post hn hf
      simp only [List.cons_append]
      unfold lookupScopes
      rw [hn s0 (by simp)]
      exact ih sc post (fun s hs => hn s (by simp [hs])) hf

/-- A successful analyze_node on a declare node is exactly a declareSym
call (at any fuel; at fuel zero there is no success). -/
theorem analyzeNode_declare_ok {f : Nat} {ty nm : PyVal} {st : Analyzer} {a : PyVal}
    {st1 : Analyzer} (h : analyzeNode f (.tup [.str "declare", ty, nm]) st = .ok (a, st1)) :
    declareSym nm ty st = .ok (a, st1) := by
  cases f with
  | zero =>
      rw [analyzeNode_zero] at h
      exact absurd h (by simp [mthrow])
  | succ g => exact h

/-- Evaluation of analyze_node on a func_call node whose name resolves to
a function descriptor: after the isinstance check and the arity
comparison, the remaining computation is the argument loop followed by
the projection of the return type. -/
theorem mbind_lookupSymM {nm v : PyVal} {st : Analyzer} {β : Type} {k : PyVal → MProg β}
    (h : lookupScopes nm st.scopes = some v) : mbind (lookupSymM nm) k st = k v st := by
  unfold mbind
  rw [lookupSymM_found h]

theorem analyze_func_call_eval {f : Nat} {nm : PyVal} {asL : List PyVal} {st : Analyzer}
    {rt : PyVal} {pts : List PyVal}
    (hlk : lookupScopes nm st.scopes = some (.tup [.str "function", rt, .list pts])) :
    analyzeNode (f + 1) (.tup [.str "func_call", nm, .list asL]) st =
      (if asL.length ≠ pts.length then
        mthrow (.semanticError ("Wrong number of arguments for function " ++ pyStr nm))
      else
        mbind (checkArgs (analyzeNode f) asL pts)
          (fun _ => mlift (pyIndex (.tup [.str "function", rt, .list pts]) 1))) st := by
  rw [analyzeNode_succ]
  show mbind (lookupSymM nm) _ st = _
  rw [mbind_lookupSymM hlk]
  rfl

/-- Success characterization of declareSym on a nonempty scopes stack. -/
theorem declareSym_ok {nm ty : PyVal} {st : Analyzer} {a : PyVal} {st1 : Analyzer}
    {top : Scope} {rest : List Scope} (hs : st.scopes = top :: rest)
    (h : declareSym nm ty st = .ok (a, st1)) :
    dictHas nm top = false ∧ a = PyVal.none ∧
      st1 = ⟨dictSet nm ty top :: rest, st.current_function⟩ := by
  unfold declareSym at h
  rw [hs] at h
  simp only [] at h
  split at h
  · cases h
  · rename_i hh
    cases h
    exact ⟨Bool.eq_false_iff.mpr hh, rfl, rfl⟩

/- The claim theorems. -/

/-- Claim C1.  The claim states that every node kind the parser can emit
has an analyzer handler, so the Unknown-node-type branch is unreachable
on parser output.  The code contradicts this: the parser emits when,
access and struct nodes (p_when_block, p_expr_access, p_struct), and the
analyzer has no handler for any of them, so analyzing such parser output
raises SemanticError Unknown node type.  This theorem evaluates the
analyzer at the failing inputs. -/
theorem c1_parser_nodes_without_handler :
    analyzeNode 2 (p_when_stmt [p_when_block (.tup [.str "boolean", .str "true"])
        (.list [.tup [.str "pass"]])]) initAnalyzer =
      .error (.semanticError "Unknown node type: when") ∧
    analyzeNode 2 (p_expr_access (.tup [.str "id", .str "a"]) (.tup [.str "id", .str "b"]))
        initAnalyzer =
      .error (.semanticError "Unknown node type: access") ∧
    analyzeNode 2 (p_struct (.str "S") (.list [.tup [.str "pass"]])) initAnalyzer =
      .error (.semanticError "Unknown node type: struct") :=
  ⟨rfl, rfl, rfl⟩

/-- Claim C2, counterexample.  The claim states that a parse error is
propagated to the caller as a typed ParseError.  At the concrete
offending token with value x, the error hook p_error completes normally
(it only prints the diagnostic and returns None), so no typed failure is
raised. -/
theorem c2_parse_error_cex :
    p_error (some ⟨.str "x"⟩) = ("Syntax error at " ++ sq ++ "x" ++ sq, .ok PyVal.none) := rfl

/-- Claim C2, amended.  On a token that cannot extend any production, the
error hook p_error prints a Syntax-error diagnostic naming the value of
the offending token (or EOF when input ended), returns None and raises
nothing, so no typed ParseError reaches the caller and the parse error is
effectively swallowed. -/
theorem c2_p_error_prints_and_returns :
    (∀ p : Option LexToken, (p_error p).2 = .ok PyVal.none) ∧
    (∀ t : LexToken, (p_error (some t)).1 = "Syntax error at " ++ sq ++ pyStr t.value ++ sq) ∧
    (p_error Option.none).1 = "Syntax error at EOF" :=
  ⟨fun p => by cases p <;> rfl, fun t => rfl, rfl⟩

/-- Claim C3.  The claim states that the body statements of a loop over
an Array iterable, and of an until with a bool condition, are analyzed,
so a violation inside the body raises SemanticError.  The code passes the
body (a Python list) to analyze_node, which returns immediately for every
non-tuple, so the body is skipped: the loop and until below analyze
successfully although their body assigns to the undeclared x, while the
same body statement analyzed on its own raises SemanticError. -/
theorem c3_loop_until_body_skipped :
    analyzeNode 3 (p_loop_stmt (.tup [.str "declare", .str "int", .str "i"])
        (.tup [.str "array_lit", .list [.tup [.str "integer", .str "1"]]])
        (.list [.tup [.str "assign", .str "x", .str "=", .tup [.str "integer", .str "1"]]]))
        initAnalyzer =
      .ok (PyVal.none, ⟨[[(.str "i", .str "int")]], PyVal.none⟩) ∧
    analyzeNode 2 (.tup [.str "until", .tup [.str "boolean", .str "true"],
        .list [.tup [.str "assign", .str "x", .str "=", .tup [.str "integer", .str "1"]]]])
        initAnalyzer =
      .ok (PyVal.none, initAnalyzer) ∧
    analyzeNode 2 (.tup [.str "assign", .str "x", .str "=", .tup [.str "integer", .str "1"]])
        initAnalyzer =
      .error (.semanticError "Variable x not declared") :=
  ⟨rfl, rfl, rfl⟩

/-- Claim C4, counterexample.  The claim states that ** follows the same
numeric widening rule as the other arithmetic operators, so that
analyzing a ** b with both operands int succeeds with result int.  In the
code result_type has no case for **, so the analysis of the binop raises
SemanticError Unknown operator. -/
theorem c4_power_cex :
    analyzeNode 2 (.tup [.str "binop", .str "**", .tup [.str "integer", .str "1"],
        .tup [.str "integer", .str "2"]]) initAnalyzer =
      .error (.semanticError "Unknown operator: **") := rfl

/-- Claim C4, amended.  For the operators +, -, * and / the result type
is double when either operand type is double and int otherwise; ** does
not follow this widening rule: result_type raises SemanticError Unknown
operator for ** on every operand pair, so a ** b fails to analyze even
with both operands int (the analyzer checks operand compatibility first
and then calls result_type, as the binop evaluations below show). -/
theorem c4_widening_amended :
    (∀ lt rt, result_type (.str "+") lt rt =
      if lt = .str "double" ∨ rt = .str "double" then .ok (.str "double") else .ok (.str "int")) ∧
    (∀ lt rt, result_type (.str "-") lt rt =
      if lt = .str "double" ∨ rt = .str "double" then .ok (.str "double") else .ok (.str "int")) ∧
    (∀ lt rt, result_type (.str "*") lt rt =
      if lt = .str "double" ∨ rt = .str "double" then .ok (.str "double") else .ok (.str "int")) ∧
    (∀ lt rt, result_type (.str "/") lt rt =
      if lt = .str "double" ∨ rt = .str "double" then .ok (.str "double") else .ok (.str "int")) ∧
    (∀ lt rt, result_type (.str "**") lt rt =
      .error (.semanticError "Unknown operator: **")) ∧
    analyzeNode 2 (.tup [.str "binop", .str "+", .tup [.str "doublel", .str "2.5"],
        .tup [.str "integer", .str "1"]]) initAnalyzer = .ok (.str "double", initAnalyzer) ∧
    analyzeNode 2 (.tup [.str "binop", .str "+", .tup [.str "integer", .str "1"],
        .tup [.str "integer", .str "2"]]) initAnalyzer = .ok (.str "int", initAnalyzer) := by
  refine ⟨fun lt rt => ?_, fun lt rt => ?_, fun lt rt => ?_, fun lt rt => ?_,
    fun lt rt => ?_, ?_, ?_⟩ <;> rfl

/-- Claim C5.  The claim states that a bare return parses to a return
node without an expression.  In p_return_stmt the test len(p) == 1 is
never true (the ply slice of the production return_stmt : RETURN has
length 2), so a bare return falls into the else branch and p[2] raises
IndexError, while return with an expression still builds the expected
node. -/
theorem c5_bare_return_crashes :
    p_return_stmt [PyVal.none, .str "return"] = .error .indexError ∧
    (∀ e : PyVal, p_return_stmt [PyVal.none, .str "return", e] = .ok (.tup [.str "return", e])) :=
  ⟨rfl, fun e => rfl⟩

/-- Claim C6.  The claim states that ++x with x declared int analyzes
successfully with result int.  The parser action p_expr_unary stores the
raw identifier string as the operand, analyze_node returns None for this
non-tuple operand, and the int check then fails, so the analysis raises
SemanticError although x is declared int. -/
theorem c6_unary_on_declared_int_rejected :
    analyze 3 [.tup [.str "declare", .str "int", .str "x"],
        p_expr_unary (.str "++") (.str "x")] initAnalyzer =
      .error (.semanticError "Unary operator ++ requires integer operand") := rfl

/-- Claim C7, counterexample.  The claim states that an empty array
literal raises SemanticError rather than crashing with an untyped
failure.  The all(...) check passes vacuously on the empty item list and
item_types[0] then raises IndexError, an untyped crash. -/
theorem c7_empty_array_cex :
    analyzeNode 2 (.tup [.str "array_lit", .list []]) initAnalyzer = .error .indexError := rfl

/-- Claim C7, amended.  An array literal whose items all analyze to the
same type T yields the type array[T]; items of differing types raise
SemanticError; an empty array literal raises the untyped IndexError (not
a SemanticError). -/
theorem c7_array_lit_amended :
    (∀ f items st t0 ts st1,
        mapAnalyze (analyzeNode f) items st = .ok (t0 :: ts, st1) →
        (∀ t ∈ ts, t = t0) →
        analyzeNode (f + 1) (.tup [.str "array_lit", .list items]) st =
          .ok (.str ("array[" ++ pyStr t0 ++ "]"), st1)) ∧
    (∀ f items st t0 ts st1 t,
        mapAnalyze (analyzeNode f) items st = .ok (t0 :: ts, st1) →
        t ∈ ts → t ≠ t0 →
        analyzeNode (f + 1) (.tup [.str "array_lit", .list items]) st =
          .error (.semanticError "Array elements must be of the same type")) ∧
    (∀ f st, analyzeNode (f + 1) (.tup [.str "array_lit", .list []]) st =
      .error .indexError) := by
  have heval : ∀ (f : Nat) (items : List PyVal) (st : Analyzer),
      analyzeNode (f + 1) (.tup [.str "array_lit", .list items]) st =
        mbind (mapAnalyze (analyzeNode f) items) (fun ts =>
          match ts with
          | [] => mthrow .indexError
          | t0 :: _ =>
              if ts.all (fun t => pyBeq t t0) then mret (.str ("array[" ++ pyStr t0 ++ "]"))
              else mthrow (.semanticError "Array elements must be of the same type")) st := by
    intro f items st
    rw [analyzeNode_succ]
    rfl
  refine ⟨?_, ?_, ?_⟩
  · intro f items st t0 ts st1 hmap hall
    rw [heval]
    unfold mbind
    rw [hmap]
    have hcheck : (t0 :: ts).all (fun t => pyBeq t t0) = true := by
      rw [List.all_eq_true]
      intro t ht
      rw [pyBeq_iff]
      rcases List.mem_cons.mp ht with h | h
      · exact h
      · exact hall t h
    show (if (t0 :: ts).all (fun t => pyBeq t t0) then
        mret (PyVal.str ("array[" ++ pyStr t0 ++ "]"))
      else mthrow (PyErr.semanticError "Array elements must be of the same type")) st1 = _
    rw [if_pos hcheck]
    rfl
  · intro f items st t0 ts st1 t hmap hmem hne
    rw [heval]
    unfold mbind
    rw [hmap]
    have hcheck : (t0 :: ts).all (fun t => pyBeq t t0) = false := by
      rw [Bool.eq_false_iff]
      intro hcontra
      rw [List.all_eq_true] at hcontra
      exact hne (pyBeq_iff t t0 |>.mp (hcontra t (by simp [hmem])))
    show (if (t0 :: ts).all (fun t => pyBeq t t0) then
        mret (PyVal.str ("array[" ++ pyStr t0 ++ "]"))
      else mthrow (PyErr.semanticError "Array elements must be of the same type")) st1 = _
    rw [if_neg (by rw [hcheck]; exact Bool.false_ne_true)]
    rfl
  · intro f st
    rfl

/-- Claim C7, witness: the amended theorem applied at the literals
[1, 2], at [1, "a"], and at []. -/
theorem c7_array_lit_amended_w :
    analyzeNode 2 (.tup [.str "array_lit", .list [.tup [.str "integer", .str "1"],
        .tup [.str "integer", .str "2"]]]) initAnalyzer = .ok (.str "array[int]", initAnalyzer) ∧
    analyzeNode 2 (.tup [.str "array_lit", .list [.tup [.str "integer", .str "1"],
        .tup [.str "string", .str "a"]]]) initAnalyzer =
      .error (.semanticError "Array elements must be of the same type") ∧
    analyzeNode 1 (.tup [.str "array_lit", .list []]) initAnalyzer = .error .indexError :=
  ⟨c7_array_lit_amended.1 1 _ initAnalyzer (.str "int") [.str "int"] initAnalyzer rfl
      (by decide),
   c7_array_lit_amended.2.1 1 _ initAnalyzer (.str "int") [.str "str"] initAnalyzer
      (.str "str") rfl (by decide) (by decide),
   c7_array_lit_amended.2.2 0 initAnalyzer⟩

/-- Claim C9.  The scope laws of the symbol table: declaring a name twice
in the same scope raises SemanticError; declaring it again after entering
a new scope succeeds and lookup then returns the inner binding; lookup
fails with SemanticError when no scope contains the name; and lookup
searches the scopes innermost-to-outermost, returning the binding of the
innermost scope that contains the name. -/
theorem c9_scope_laws :
    (∀ n t t2 st a st1, declareSym n t st = .ok (a, st1) →
        declareSym n t2 st1 =
          .error (.semanticError ("Variable " ++ pyStr n ++ " already declared in current scope"))) ∧
    (∀ n t t2 st a st1 u st2, declareSym n t st = .ok (a, st1) →
        enterScopeM st1 = .ok (u, st2) →
        ∃ st3, declareSym n t2 st2 = .ok (PyVal.none, st3) ∧
          lookupSymM n st3 = .ok (t2, st3)) ∧
    (∀ n st, (∀ sc ∈ st.scopes, dictGet? n sc = Option.none) →
        lookupSymM n st = .error (.semanticError ("Variable " ++ pyStr n ++ " not declared"))) ∧
    (∀ n v st pre sc post, st.scopes = pre ++ sc :: post →
        (∀ s1 ∈ pre, dictGet? n s1 = Option.none) →
        dictGet? n sc = some v →
        lookupSymM n st = .ok (v, st)) := by
  refine ⟨?_, ?_, ?_, ?_⟩
  · intro n t t2 st a st1 h
    cases hs : st.scopes with
    | nil =>
        unfold declareSym at h
        rw [hs] at h
        cases h
    | cons top rest =>
        obtain ⟨hfresh, -, rfl⟩ := declareSym_ok hs h
        unfold declareSym
        simp only []
        rw [if_pos (by unfold dictHas; rw [dictGet?_set_self]; rfl)]
  · intro n t t2 st a st1 u st2 h henter
    cases hs : st.scopes with
    | nil =>
        unfold declareSym at h
        rw [hs] at h
        cases h
    | cons top rest =>
        obtain ⟨hfresh, -, rfl⟩ := declareSym_ok hs h
        unfold enterScopeM at henter
        cases henter
        refine ⟨⟨[(n, t2)] :: dictSet n t top :: rest, st.current_function⟩, rfl, ?_⟩
        apply lookupSymM_found
        show lookupScopes n ([] ++ [(n, t2)] :: (dictSet n t top :: rest)) = some t2
        exact lookupScopes_append_found [] _ _ (by simp) (by simp [dictGet?])
  · intro n st h
    unfold lookupSymM
    rw [lookupScopes_none _ h]
  · intro n v st pre sc post hs hn hf
    apply lookupSymM_found
    rw [hs]
    exact lookupScopes_append_found pre sc post hn hf

/-- Claim C9, witness: the scope laws applied at the name x with types
int and str over the initial analyzer state, and the innermost-wins rule
at a two-scope stack both of which bind x. -/
theorem c9_scope_laws_w :
    declareSym (.str "x") (.str "str") ⟨[[(.str "x", .str "int")]], PyVal.none⟩ =
      .error (.semanticError "Variable x already declared in current scope") ∧
    (∃ st3, declareSym (.str "x") (.str "str") ⟨[[], [(.str "x", .str "int")]], PyVal.none⟩ =
        .ok (PyVal.none, st3) ∧
      lookupSymM (.str "x") st3 = .ok (.str "str", st3)) ∧
    lookupSymM (.str "y") initAnalyzer =
      .error (.semanticError "Variable y not declared") ∧
    lookupSymM (.str "x") ⟨[[(.str "x", .str "int")], [(.str "x", .str "bool")]], PyVal.none⟩ =
      .ok (.str "int", ⟨[[(.str "x", .str "int")], [(.str "x", .str "bool")]], PyVal.none⟩) :=
  ⟨c9_scope_laws.1 (.str "x") (.str "int") (.str "str") initAnalyzer PyVal.none
      ⟨[[(.str "x", .str "int")]], PyVal.none⟩ rfl,
   c9_scope_laws.2.1 (.str "x") (.str "int") (.str "str") initAnalyzer PyVal.none
      ⟨[[(.str "x", .str "int")]], PyVal.none⟩ PUnit.unit
      ⟨[[], [(.str "x", .str "int")]], PyVal.none⟩ rfl rfl,
   c9_scope_laws.2.2.1 (.str "y") initAnalyzer (by decide),
   c9_scope_laws.2.2.2 (.str "x") (.str "int")
      ⟨[[(.str "x", .str "int")], [(.str "x", .str "bool")]], PyVal.none⟩
      [] [(.str "x", .str "int")] [[(.str "x", .str "bool")]] rfl (by simp) rfl⟩

/-- Claim C10.  For every loop statement that analyzes successfully, the
loop variable is declared in the scope that was innermost before the
loop, not in the scope pushed for the body: after the body scope is
popped the final state has the same scope-stack depth, its innermost
scope still binds the loop variable to its declared type, and lookup of
the loop variable succeeds in the final state. -/
theorem c10_loop_var_persists :
    ∀ f ty nm iterable body st a st1 top rest,
      st.scopes = top :: rest →
      analyzeNode (f + 1) (p_loop_stmt (.tup [.str "declare", ty, nm]) iterable body) st =
        .ok (a, st1) →
      ∃ sc, st1.scopes = sc :: rest ∧ dictGet? nm sc = some ty ∧
        lookupSymM nm st1 = .ok (ty, st1) := by
  intro f ty nm iterable body st a st1 top rest hs h
  rw [analyzeNode_succ] at h
  replace h : (mbind (analyzeNode f (.tup [.str "declare", ty, nm])) fun _ =>
      mbind (analyzeNode f iterable) fun it =>
        match it with
        | PyVal.str s =>
            if pyStartsWith s "array[" then
              mbind (scopedM (analyzeNode f body)) fun _ => mret PyVal.none
            else mthrow (PyErr.semanticError "Loop iterable must be an array")
        | _ => mthrow PyErr.attributeError) st = .ok (a, st1) := h
  rcases mbind_ok.mp h with ⟨r1, stA, h1, h⟩
  obtain ⟨hfresh, -, rfl⟩ := declareSym_ok hs (analyzeNode_declare_ok h1)
  rcases mbind_ok.mp h with ⟨it, stB, h2, h⟩
  have hframe : ScopeExt (dictSet nm ty top :: rest) stB.scopes :=
    frame_analyzeNode f iterable _ _ _ h2
  obtain ⟨added, hB, -⟩ := hframe
  cases it with
  | str s =>
      rw [show (match PyVal.str s with
          | PyVal.str s =>
              if pyStartsWith s "array[" then
                mbind (scopedM (analyzeNode f body)) fun _ => mret PyVal.none
              else mthrow (PyErr.semanticError "Loop iterable must be an array")
          | _ => mthrow PyErr.attributeError : M) =
        (if pyStartsWith s "array[" then
            mbind (scopedM (analyzeNode f body)) fun _ => mret PyVal.none
          else mthrow (PyErr.semanticError "Loop iterable must be an array")) from rfl] at h
      split at h
      · rcases mbind_ok.mp h with ⟨r3, stC, h3, h4⟩
        have hsc : stC.scopes = stB.scopes :=
          scopedM_ok_scopes (frame_analyzeNode f body) h3
        unfold mret at h4
        cases h4
        refine ⟨dictSet nm ty top ++ added, ?_, ?_, ?_⟩
        · rw [hsc, hB]
        · exact dictGet?_append_left _ (dictGet?_set_self nm ty top)
        · apply lookupSymM_found
          rw [hsc, hB]
          show lookupScopes nm ([] ++ (dictSet nm ty top ++ added) :: rest) = some ty
          exact lookupScopes_append_found [] _ _ (by simp)
            (dictGet?_append_left _ (dictGet?_set_self nm ty top))
      · cases h
  | intv n => cases h
  | tup l => cases h
  | list l => cases h
  | none => cases h

/-- Claim C8.  The function contract: (1) a successfully analyzed
function declaration declares the name as the descriptor
(function, returnType, paramTypes) in the scope that was innermost
before the declaration — the declaration happens before the body scope
is pushed, and after the body scope is popped the descriptor is the only
binding the declaration has added to that scope; (2) calling a declared
function with the wrong number of arguments raises SemanticError;
(3) a positionally incompatible argument (after any prefix of compatible
arguments) makes the argument loop raise SemanticError, and (4) that
failure propagates out of the call; (5) a call whose argument loop
succeeds yields the declared return type of the function. -/
theorem c8_function_contract :
    (∀ f rt nm params body st a st1 top rest psL pts,
        st.scopes = top :: rest →
        pyIter params = .ok psL →
        paramTys psL = .ok pts →
        analyzeNode (f + 1) (.tup [.str "func_declare", rt, nm, params, body]) st =
          .ok (a, st1) →
        dictHas nm top = false ∧
          st1.scopes = (top ++ [(nm, .tup [.str "function", rt, .list pts])]) :: rest) ∧
    (∀ f nm args asL st rt pts,
        lookupScopes nm st.scopes = some (.tup [.str "function", rt, .list pts]) →
        args = PyVal.list asL →
        asL.length ≠ pts.length →
        analyzeNode (f + 1) (.tup [.str "func_call", nm, args]) st =
          .error (.semanticError ("Wrong number of arguments for function " ++ pyStr nm))) ∧
    (∀ g as1 ps1 a2 argT as2 pt ps2 st st1 st2,
        as1.length = ps1.length →
        checkArgs g as1 ps1 st = .ok (PyVal.none, st1) →
        g a2 st1 = .ok (argT, st2) →
        typeCompatible pt argT = false →
        checkArgs g (as1 ++ a2 :: as2) (ps1 ++ pt :: ps2) st =
          .error (.semanticError ("Argument type mismatch: expected " ++ pyStr pt ++ ", got " ++ pyStr argT))) ∧
    (∀ f nm args asL st rt pts e,
        lookupScopes nm st.scopes = some (.tup [.str "function", rt, .list pts]) →
        args = PyVal.list asL →
        asL.length = pts.length →
        checkArgs (analyzeNode f) asL pts st = .error e →
        analyzeNode (f + 1) (.tup [.str "func_call", nm, args]) st = .error e) ∧
    (∀ f nm args asL st rt pts r st1,
        lookupScopes nm st.scopes = some (.tup [.str "function", rt, .list pts]) →
        args = PyVal.list asL →
        asL.length = pts.length →
        checkArgs (analyzeNode f) asL pts st = .ok (r, st1) →
        analyzeNode (f + 1) (.tup [.str "func_call", nm, args]) st = .ok (rt, st1)) := by
  refine ⟨?_, ?_, ?_, ?_, ?_⟩
  · -- (1) declaration goes to the enclosing scope
    intro f rt nm params body st a st1 top rest psL pts hs hiter hptys h
    rw [analyzeNode_succ] at h
    replace h : (mbind (mlift (pyIter params)) fun psL2 =>
        mbind (mlift (paramTys psL2)) fun pts2 =>
        mbind (declareSym nm (.tup [.str "function", rt, .list pts2])) fun _ =>
        mbind (scopedM (
          mbind (setCurrentFunction rt) fun _ =>
          mbind (runAll (analyzeNode f) psL2) fun _ =>
          mbind (mlift (pyIter body)) fun bodyL =>
          mbind (runAll (analyzeNode f) bodyL) fun _ =>
          mbind (setCurrentFunction PyVal.none) fun _ => mret PyVal.none)) fun _ =>
        mret PyVal.none) st = .ok (a, st1) := h
    rcases mbind_ok.mp h with ⟨psL2, stA, h1, h⟩
    rcases mlift_ok.mp h1 with ⟨hps, rfl⟩
    rw [hiter] at hps
    cases hps
    rcases mbind_ok.mp h with ⟨pts2, stB, h2, h⟩
    rcases mlift_ok.mp h2 with ⟨hpt, rfl⟩
    rw [hptys] at hpt
    cases hpt
    rcases mbind_ok.mp h with ⟨r3, stC, h3, h⟩
    obtain ⟨hfresh, -, rfl⟩ := declareSym_ok hs h3
    rcases mbind_ok.mp h with ⟨r4, stD, h4, h5⟩
    have hframe : ∀ n : PyVal, Frame (analyzeNode f n) := frame_analyzeNode f
    have hmid : Frame (
        mbind (setCurrentFunction rt) fun _ =>
        mbind (runAll (analyzeNode f) psL) fun _ =>
        mbind (mlift (pyIter body)) fun bodyL =>
        mbind (runAll (analyzeNode f) bodyL) fun _ =>
        mbind (setCurrentFunction PyVal.none) fun _ => mret PyVal.none) := by
      refine frame_mbind (frame_setCurrentFunction _) (fun _ => ?_)
      refine frame_mbind (frame_runAll hframe _) (fun _ => ?_)
      refine frame_mbind (frame_mlift _) (fun bodyL => ?_)
      refine frame_mbind (frame_runAll hframe _) (fun _ => ?_)
      exact frame_mbind (frame_setCurrentFunction _) (fun _ => frame_mret _)
    have hsc := scopedM_ok_scopes hmid h4
    unfold mret at h5
    cases h5
    refine ⟨hfresh, ?_⟩
    rw [hsc]
    show dictSet nm (.tup [.str "function", rt, .list pts]) top :: rest = _
    rw [dictSet_not_has _ hfresh]
  · -- (2) wrong arity
    intro f nm args asL st rt pts hlk hargs hlen
    subst hargs
    rw [analyze_func_call_eval hlk]
    rw [if_pos hlen]
    rfl
  · -- (3) the argument loop rejects a positionally incompatible argument
    intro g as1
    induction as1 with
    | nil =>
        intro ps1 a2 argT as2 pt ps2 st st1 st2 hlen hca hg hcomp
        have hps : ps1 = [] := List.length_eq_zero.mp (by rw [← hlen]; rfl)
        subst hps
        replace hca : mret (α := PyVal) PyVal.none st = .ok (PyVal.none, st1) := hca
        unfold mret at hca
        cases hca
        show (mbind (g a2) fun argT2 =>
            if typeCompatible pt argT2 then checkArgs g as2 ps2
            else mthrow (.semanticError ("Argument type mismatch: expected " ++ pyStr pt ++ ", got " ++ pyStr argT2))) st = _
        unfold mbind
        rw [hg]
        show (if typeCompatible pt argT then checkArgs g as2 ps2
            else mthrow (PyErr.semanticError ("Argument type mismatch: expected " ++ pyStr pt ++ ", got " ++ pyStr argT))) st2 = _
        rw [if_neg (by rw [hcomp]; exact Bool.false_ne_true)]
        rfl
    | cons b bs ih =>
        intro ps1 a2 argT as2 pt ps2 st st1 st2 hlen hca hg hcomp
        cases ps1 with
        | nil => cases hlen
        | cons q qs =>
            replace hca : (mbind (g b) fun bt =>
                if typeCompatible q bt then checkArgs g bs qs
                else mthrow (.semanticError ("Argument type mismatch: expected " ++ pyStr q ++ ", got " ++ pyStr bt))) st = .ok (PyVal.none, st1) := hca
            rcases mbind_ok.mp hca with ⟨bt, stb, hgb, hk⟩
            split at hk
            · rename_i hcond
              show (mbind (g b) fun bt2 =>
                  if typeCompatible q bt2 then checkArgs g (bs ++ a2 :: as2) (qs ++ pt :: ps2)
                  else mthrow (.semanticError ("Argument type mismatch: expected " ++ pyStr q ++ ", got " ++ pyStr bt2))) st = _
              unfold mbind
              rw [hgb]
              show (if typeCompatible q bt then checkArgs g (bs ++ a2 :: as2) (qs ++ pt :: ps2)
                  else mthrow (PyErr.semanticError ("Argument type mismatch: expected " ++ pyStr q ++ ", got " ++ pyStr bt))) stb = _
              rw [if_pos hcond]
              exact ih qs a2 argT as2 pt ps2 stb st1 st2 (by simpa using hlen) hk hg hcomp
            · cases hk
  · -- (4) an argument-loop failure propagates out of the call
    intro f nm args asL st rt pts e hlk hargs hlen hca
    subst hargs
    rw [analyze_func_call_eval hlk]
    rw [if_neg (fun hcon => hcon hlen)]
    exact mbind_err_left _ hca
  · -- (5) a compatible call yields the declared return type
    intro f nm args asL st rt pts r st1 hlk hargs hlen hca
    subst hargs
    rw [analyze_func_call_eval hlk]
    rw [if_neg (fun hcon => hcon hlen)]
    unfold mbind
    rw [hca]
    rfl

/-- Claim C8, witness: the contract applied to the function
int add(int x, int y) declared from the initial state (its descriptor
lands in the global scope), then called with one argument, with a str
first argument, and with two int arguments. -/
theorem c8_function_contract_w :
    (dictHas (.str "add") [] = false ∧
      (⟨[[(.str "add", .tup [.str "function", .str "int", .list [.str "int", .str "int"]])]],
          PyVal.none⟩ : Analyzer).scopes =
        [[(.str "add", .tup [.str "function", .str "int", .list [.str "int", .str "int"]])]]) ∧
    analyzeNode 1 (.tup [.str "func_call", .str "add", .list [.tup [.str "integer", .str "1"]]])
        ⟨[[(.str "add", .tup [.str "function", .str "int", .list [.str "int", .str "int"]])]],
          PyVal.none⟩ =
      .error (.semanticError "Wrong number of arguments for function add") ∧
    checkArgs (analyzeNode 1) [.tup [.str "string", .str "a"]] [.str "int"]
        ⟨[[(.str "add", .tup [.str "function", .str "int", .list [.str "int", .str "int"]])]],
          PyVal.none⟩ =
      .error (.semanticError "Argument type mismatch: expected int, got str") ∧
    analyzeNode 2 (.tup [.str "func_call", .str "add",
        .list [.tup [.str "string", .str "a"], .tup [.str "integer", .str "2"]]])
        ⟨[[(.str "add", .tup [.str "function", .str "int", .list [.str "int", .str "int"]])]],
          PyVal.none⟩ =
      .error (.semanticError "Argument type mismatch: expected int, got str") ∧
    analyzeNode 2 (.tup [.str "func_call", .str "add",
        .list [.tup [.str "integer", .str "1"], .tup [.str "integer", .str "2"]]])
        ⟨[[(.str "add", .tup [.str "function", .str "int", .list [.str "int", .str "int"]])]],
          PyVal.none⟩ =
      .ok (.str "int",
        ⟨[[(.str "add", .tup [.str "function", .str "int", .list [.str "int", .str "int"]])]],
          PyVal.none⟩) :=
  ⟨c8_function_contract.1 3 (.str "int") (.str "add")
      (.list [.tup [.str "declare", .str "int", .str "x"],
        .tup [.str "declare", .str "int", .str "y"]])
      (.list [.tup [.str "return", .tup [.str "id", .str "x"]]])
      initAnalyzer PyVal.none
      ⟨[[(.str "add", .tup [.str "function", .str "int", .list [.str "int", .str "int"]])]],
        PyVal.none⟩
      [] []
      [.tup [.str "declare", .str "int", .str "x"], .tup [.str "declare", .str "int", .str "y"]]
      [.str "int", .str "int"] rfl rfl rfl rfl,
   c8_function_contract.2.1 0 (.str "add") _ [.tup [.str "integer", .str "1"]] _
      (.str "int") [.str "int", .str "int"] rfl rfl (by decide),
   c8_function_contract.2.2.1 (analyzeNode 1) [] [] (.tup [.str "string", .str "a"])
      (.str "str") [] (.str "int") [] _ _ _ rfl rfl rfl rfl,
   c8_function_contract.2.2.2.1 1 (.str "add") _
      [.tup [.str "string", .str "a"], .tup [.str "integer", .str "2"]] _
      (.str "int") [.str "int", .str "int"] _ rfl rfl rfl rfl,
   c8_function_contract.2.2.2.2 1 (.str "add") _
      [.tup [.str "integer", .str "1"], .tup [.str "integer", .str "2"]] _
      (.str "int") [.str "int", .str "int"] PyVal.none _ rfl rfl rfl rfl⟩

/-- Claim C10, witness: a loop over the array literal [1] with loop
variable int i and an empty body list, analyzed from the initial state;
the loop variable i survives the loop in the global scope. -/
theorem c10_loop_var_persists_w :
    ∃ sc, (⟨[[(.str "i", .str "int")]], PyVal.none⟩ : Analyzer).scopes = sc :: [] ∧
      dictGet? (.str "i") sc = some (.str "int") ∧
      lookupSymM (.str "i") ⟨[[(.str "i", .str "int")]], PyVal.none⟩ =
        .ok (.str "int", ⟨[[(.str "i", .str "int")]], PyVal.none⟩) :=
  c10_loop_var_persists 2 (.str "int") (.str "i")
    (.tup [.str "array_lit", .list [.tup [.str "integer", .str "1"]]])
    (.list []) initAnalyzer PyVal.none ⟨[[(.str "i", .str "int")]], PyVal.none⟩
    [] [] rfl rfl

end Olang
